import Mathlib

/-!
Verification development for the audio-pi control backend (src/app/app.py).

The Python source is shallowly embedded: pure logic becomes Lean functions,
the process-spawning helpers become explicit oracles (an argv-based executor
for subprocess.run, and record-of-lines oracles for the shell pipelines used
by the ALSA probing code), and the module-level mixer cache becomes an
explicit state value threaded through the handlers.  Machine integers are
modelled as Int/Nat: every arithmetic expression in the source stays far
from any overflow boundary, and the two float expressions in the volume
curve are modelled as Nat floor division, which agrees with the Python
float computation at every point of the clamped 0..100 domain (the float
rounding error, below 1e-13, never crosses an integer boundary there
because the exact values are multiples of 1/10 resp. 1/3).

Fallible Python operations (int() on a string) are modelled with Option;
an uncaught ValueError is modelled with Except.error.
-/

/-! ### Python string primitives, modelled on the character list level -/

/-- Models the whitespace test used by Python str.strip for the ASCII
whitespace actually produced by the wrapped command-line tools. -/
def isPySpace (c : Char) : Bool := c.isWhitespace

/-- Models Python str.strip with no arguments: remove whitespace from both
ends of the string. -/
def pyStrip (s : String) : String :=
  String.mk (((s.data.dropWhile isPySpace).reverse.dropWhile isPySpace).reverse)

/-- Splitting a character list at every occurrence of a separator, keeping
empty segments, exactly as Python str.split with an explicit separator. -/
def splitChars (sep : Char) : List Char → List (List Char)
  | [] => [[]]
  | c :: rest =>
    if c = sep then [] :: splitChars sep rest
    else
      match splitChars sep rest with
      | [] => [[c]]
      | s :: ss => (c :: s) :: ss

/-- Models Python line.split(sep) for a one-character separator. -/
def pySplit (s : String) (sep : Char) : List String :=
  (splitChars sep s.data).map String.mk

/-- Models Python line.split(sep, 1): none when the separator is absent
(where unpacking into two variables would raise ValueError), otherwise the
part before the first separator and everything after it. -/
def splitOnce (sep : Char) (l : List Char) : Option (List Char × List Char) :=
  match l.dropWhile (fun c => c != sep) with
  | [] => none
  | _ :: tail => some (l.takeWhile (fun c => c != sep), tail)

/-- Digit-run evaluation: some value when the character list is a nonempty
run of decimal digits, otherwise none. -/
def digitsVal (cs : List Char) : Option Nat :=
  if cs.isEmpty then none
  else if cs.all Char.isDigit then
    some (cs.foldl (fun a c => a * 10 + (c.toNat - 48)) 0)
  else none

/-- Models Python int(s) on a decimal string: surrounding whitespace is
ignored, one optional sign, then a nonempty digit run; none models a raised
ValueError.  (Digit-grouping underscores, a Python nicety never produced by
the wrapped tools, are not modelled.) -/
def pyInt (s : String) : Option Int :=
  match (pyStrip s).data with
  | [] => none
  | c :: rest =>
    if c = '+' then (digitsVal rest).map (fun n => (n : Int))
    else if c = '-' then (digitsVal rest).map (fun n => -(n : Int))
    else (digitsVal (c :: rest)).map (fun n => (n : Int))

/-- Substring presence on character lists. -/
def hasSubChars (pat : List Char) : List Char → Bool
  | [] => pat.isEmpty
  | c :: rest => pat.isPrefixOf (c :: rest) || hasSubChars pat rest

/-- Models the Python membership test sub in s on strings. -/
def pyContains (sub s : String) : Bool := hasSubChars sub.data s.data

/-! ### Volume curve (app.py lines 203-216)

Source of _ui_to_hw:  clamp to 0..100; 0 maps to 0; otherwise
70 + int((ui/100)*30).  Source of _hw_to_ui: clamp to 0..100; 0 maps to 0;
1..70 map to 1; otherwise int(((hw-70)/30)*100).  Over the clamped integer
domain both float expressions equal Nat floor division, as checked in the
module comment, so the embedding uses u*30/100 and (h-70)*100/30 on Nat. -/

/-- The clamp max(0, min(100, v)) applied by both curve functions and by
set_volume_percent, landing in 0..100. -/
def clampUI (value : Int) : Nat := (max 0 (min 100 value)).toNat

/-- Models _ui_to_hw (app.py line 203): UI percent to hardware percent. -/
def ui_to_hw (ui : Int) : Nat :=
  let u := clampUI ui
  if u = 0 then 0 else 70 + u * 30 / 100

/-- Models _hw_to_ui (app.py line 210): hardware percent back to UI percent. -/
def hw_to_ui (hw : Int) : Nat :=
  let h := clampUI hw
  if h = 0 then 0
  else if h ≤ 70 then 1
  else (h - 70) * 100 / 30

/-! ### ALSA world oracle and mixer detection (app.py lines 105-193) -/

/-- Outputs of the shell pipelines consulted by the ALSA probing helpers.
Each field holds what the corresponding pipeline would print:
cardsInfoLines the card-number|card-name lines used by detect_mixer,
listCardsLines the bare card-number lines used by list_cards,
scontrolsLines the amixer scontrols lines for a given card, and
pcmGetOut the digits-only output of the amixer get PCM pipeline. -/
structure AlsaWorld where
  cardsInfoLines : List String
  listCardsLines : List String
  scontrolsLines : Int → List String
  pcmGetOut : String

/-- Models the module-level _DETECTED cache (app.py line 105). -/
structure Detected where
  card : Option Int
  mixer : Option String
deriving DecidableEq

/-- Tags for the shell queries detect_mixer can issue, used to express that
the memoized path issues none. -/
inductive ShQuery where
  | cardsInfo
  | listCards
  | scontrols (card : Int)
deriving DecidableEq

/-- Models list_cards (app.py line 108): parse each line as an int, drop
failures, and fall back to the single card 0 when nothing parsed. -/
def list_cards (w : AlsaWorld) : List Int :=
  let cards := w.listCardsLines.filterMap (fun line => pyInt line)
  if cards.isEmpty then [(0 : Int)] else cards

/-- Models list_mixers (app.py line 122): for every line containing a quote
character, take the text between the first two quotes.  A line splits into
at least two parts exactly when it contains the quote character, so the
pattern match covers both source conditions. -/
def list_mixers (w : AlsaWorld) (card : Int) : List String :=
  (w.scontrolsLines card).filterMap fun line =>
    match splitChars (Char.ofNat 39) line.data with
    | _ :: p1 :: _ => some (String.mk p1)
    | _ => none

/-- Models the preferred-card scan of detect_mixer (app.py lines 152-160):
lines that split at a pipe, whose number parses, and whose card name
mentions Headphones or bcm2835; the bare except skips every failure. -/
def headphoneCards (w : AlsaWorld) : List Int :=
  w.cardsInfoLines.filterMap fun line =>
    match splitOnce '|' line.data with
    | none => none
    | some (numCs, nameCs) =>
      match pyInt (String.mk numCs) with
      | none => none
      | some num =>
        if pyContains ("Headphones") (String.mk nameCs)
            || pyContains ("bcm2835") (String.mk nameCs)
        then some num else none

/-- Models the loop of app.py lines 163-165: append each enumerated card not
already in the preferred list, checking against the growing list. -/
def addCards (pref : List Int) : List Int → List Int
  | [] => pref
  | c :: rest =>
    if pref.contains c then addCards pref rest else addCards (pref ++ [c]) rest

/-- Candidate card order tried by detect_mixer: preferred headphone cards
first, then the remaining enumerated cards. -/
def candidateCards (w : AlsaWorld) : List Int :=
  addCards (headphoneCards w) (list_cards w)

/-- The fixed control-name preference list of detect_mixer (app.py 144). -/
def preferredMixers : List String := [("PCM"), ("Headphone"), ("Master"), ("Digital")]

/-- First preferred control name present among the controls of one card. -/
def firstPreferred (mixers : List String) : Option String :=
  preferredMixers.find? (fun m => mixers.contains m)

/-- The card loop of detect_mixer (app.py lines 168-174): first candidate
card exposing a preferred control wins, with the control preference nested
inside the card preference. -/
def pickMixer (w : AlsaWorld) : List Int → Option (Int × String)
  | [] => none
  | c :: rest =>
    match firstPreferred (list_mixers w c) with
    | some m => some (c, m)
    | none => pickMixer w rest

/-- The scontrols queries the card loop issues, one per candidate card up to
and including the first match. -/
def pickTrace (w : AlsaWorld) : List Int → List ShQuery
  | [] => []
  | c :: rest =>
    match firstPreferred (list_mixers w c) with
    | some _ => [ShQuery.scontrols c]
    | none => ShQuery.scontrols c :: pickTrace w rest

/-- Result of one detect_mixer call: the selection returned, the cache state
afterwards, and the shell queries issued during the call. -/
structure DetectResult where
  sel : Int × String
  state : Detected
  queries : List ShQuery

/-- Models detect_mixer (app.py lines 137-179).  When both cache fields are
set the cached selection is returned with no queries; otherwise the card and
control preferences are scanned and, when nothing matches, the first
candidate card (0 only when the candidate list is empty) is selected with
control Master, and the selection is written to the cache. -/
def detect_mixer (w : AlsaWorld) (st : Detected) : DetectResult :=
  match st.card, st.mixer with
  | some c, some m => ⟨(c, m), st, []⟩
  | _, _ =>
    let cands := candidateCards w
    let sel :=
      match pickMixer w cands with
      | some cm => cm
      | none => (cands.headD 0, ("Master"))
    ⟨sel, ⟨some sel.1, some sel.2⟩,
      ShQuery.cardsInfo :: ShQuery.listCards :: pickTrace w cands⟩

/-! ### Volume handlers (app.py lines 196-228, 265-267)

The handlers receive the Detected cache value as an explicit argument,
standing for the ambient module state; the source volume functions never
read it, which the noninterference theorem below makes precise. -/

/-- Models get_volume_percent composed with _get_hw_pcm (app.py lines
196-201, 218-219): parse the pipeline output as an int, 0 on failure, then
map through the hardware-to-UI curve. -/
def get_volume_percent (w : AlsaWorld) (det : Detected) : Nat :=
  hw_to_ui ((pyInt w.pcmGetOut).getD 0)

/-- Models set_volume_percent (app.py lines 221-228): clamp, convert, then
issue one amixer command, a mute at 0% for UI zero and an unmute at the
converted percentage otherwise; returns (argv issued, realized UI value). -/
def set_volume_percent (det : Detected) (value : Int) : List String × Nat :=
  let ui := clampUI value
  let hw := ui_to_hw (ui : Int)
  if ui = 0 then
    ([("sudo"), ("/usr/bin/amixer"), ("-c"), ("0"), ("set"), ("PCM"),
      ("0%"), ("mute")], ui)
  else
    ([("sudo"), ("/usr/bin/amixer"), ("-c"), ("0"), ("set"), ("PCM"),
      toString hw ++ ("%"), ("unmute")], ui)

/-- Response of the volume endpoint. -/
structure VolumeResp where
  ok : Bool
  volume : Nat
deriving DecidableEq

/-- Models api_set_volume (app.py lines 265-267). -/
def api_set_volume (det : Detected) (value : Int) : VolumeResp × List (List String) :=
  let r := set_volume_percent det value
  (⟨true, r.2⟩, [r.1])

/-! ### Command executor oracle and service endpoints (app.py 51-98, 270-322) -/

/-- Result of one argv-based subprocess invocation. -/
structure ExecResult where
  returncode : Int
  stdout : String
  stderr : String

/-- The external command executor: argv in, captured result out. -/
abbrev Exec := List String → ExecResult

/-- The dict built by the systemctl helper (app.py lines 82-88). -/
structure SysctlResult where
  ok : Bool
  stdout : String
  stderr : String
  code : Int
deriving DecidableEq

/-- Models systemctl (app.py lines 82-88): run sudo systemctl with the given
arguments; returns the result dict and the singleton call trace. -/
def systemctlRun (env : Exec) (args : List String) : SysctlResult × List (List String) :=
  let cmd := [("sudo"), ("/usr/bin/systemctl")] ++ args
  let p := env cmd
  (⟨p.returncode == 0, pyStrip p.stdout, pyStrip p.stderr, p.returncode⟩, [cmd])

/-- Models service_status (app.py lines 91-93): stripped stdout of
systemctl is-active, or unknown when empty. -/
def service_status (env : Exec) (unit : String) : String × List (List String) :=
  let cmd := [("/usr/bin/systemctl"), ("is-active"), unit]
  let s := pyStrip (env cmd).stdout
  ((if s = ("") then ("unknown") else s), [cmd])

/-- Models service_enabled (app.py lines 96-98). -/
def service_enabled (env : Exec) (unit : String) : String × List (List String) :=
  let cmd := [("/usr/bin/systemctl"), ("is-enabled"), unit]
  let s := pyStrip (env cmd).stdout
  ((if s = ("") then ("unknown") else s), [cmd])

/-- The logical-service table of api_service (app.py lines 276-282). -/
def serviceMapping : List (String × String) :=
  [(("bluetooth"), ("bluetooth")), (("airplay"), ("shairport-sync")),
   (("spotify"), ("raspotify")), (("snapserver"), ("snapserver")),
   (("snapclient"), ("snapclient"))]

/-- The action set accepted by api_service (app.py line 272). -/
def validActions : List String := [("start"), ("stop"), ("restart")]

/-- Response of the service endpoint. -/
structure ServiceResp where
  ok : Bool
  status : String
  detail : SysctlResult
deriving DecidableEq

/-- Models api_service (app.py lines 270-289): action validated first, then
the name resolved through the table, 400 on either failure with no command
run; on success one sudo systemctl call and one is-active status query, both
against the mapped unit. -/
def api_service (env : Exec) (name action : String) :
    Except Nat ServiceResp × List (List String) :=
  if action ∈ validActions then
    match serviceMapping.lookup name with
    | some unit =>
      let r := systemctlRun env [action, unit]
      let s := service_status env unit
      (.ok ⟨r.1.ok, s.1, r.1⟩, r.2 ++ s.2)
    | none => (.error 400, [])
  else (.error 400, [])

/-- Response of the multiroom endpoint. -/
structure MultiroomResp where
  ok : Bool
  mode : String
  snapserver : String
  snapclient : String
  enabledSnapserver : String
  enabledSnapclient : String
deriving DecidableEq

/-- Models api_multiroom (app.py lines 292-322): reject unknown modes with
400 before any command; otherwise issue the two enable/disable transitions
for the mode in source order, ignore their results, and report the observed
active and enabled state of both units. -/
def api_multiroom (env : Exec) (mode : String) :
    Except Nat MultiroomResp × List (List String) :=
  if mode ∈ [("server"), ("client"), ("off")] then
    let t :=
      if mode = ("server") then
        (systemctlRun env [("enable"), ("--now"), ("snapserver")]).2 ++
        (systemctlRun env [("disable"), ("--now"), ("snapclient")]).2
      else if mode = ("client") then
        (systemctlRun env [("enable"), ("--now"), ("snapclient")]).2 ++
        (systemctlRun env [("disable"), ("--now"), ("snapserver")]).2
      else
        (systemctlRun env [("disable"), ("--now"), ("snapserver")]).2 ++
        (systemctlRun env [("disable"), ("--now"), ("snapclient")]).2
    let s1 := service_status env ("snapserver")
    let s2 := service_status env ("snapclient")
    let e1 := service_enabled env ("snapserver")
    let e2 := service_enabled env ("snapclient")
    (.ok ⟨true, mode, s1.1, s2.1, e1.1, e2.1⟩, t ++ s1.2 ++ s2.2 ++ e1.2 ++ e2.2)
  else (.error 400, [])

/-! ### Wifi scan reducer (app.py lines 325-349) -/

/-- One parsed scan record; all three fields keep their raw string form, as
in the source dicts. -/
structure WifiRec where
  ssid : String
  signal : String
  security : String
deriving DecidableEq

/-- Models the parsing loop (app.py lines 332-336): split each line at
colons, keep lines with at least three fields and a nonempty first field. -/
def parseNetworks (lines : List String) : List WifiRec :=
  lines.filterMap fun line =>
    match pySplit line ':' with
    | s0 :: s1 :: s2 :: _ => if s0 = ("") then none else some ⟨s0, s1, s2⟩
    | _ => none

/-- The guarded signal parse (app.py lines 343-345): int on the signal
field, 0 when it raises. -/
def sigOf (r : WifiRec) : Int := (pyInt r.signal).getD 0

/-- Ordered-dictionary lookup for the best dict. -/
def findBest : List (String × WifiRec) → String → Option WifiRec
  | [], _ => none
  | (k, v) :: rest, s => if k = s then some v else findBest rest s

/-- Ordered-dictionary update: replace the value at an existing key in
place, keeping insertion order, as a Python dict assignment does. -/
def updateBest : List (String × WifiRec) → String → WifiRec → List (String × WifiRec)
  | [], k, v => [(k, v)]
  | (k0, v0) :: rest, k, v =>
    if k0 = k then (k, v) :: rest else (k0, v0) :: updateBest rest k v

/-- The exception raised by an unguarded int() call. -/
def valueError : String := ("ValueError")

/-- One iteration of the dedupe loop (app.py lines 340-347): a new SSID is
inserted; a duplicate SSID is compared against the stored record through an
unguarded int() on the stored signal string, which raises when that string
does not parse. -/
def dedupStep (best : List (String × WifiRec)) (n : WifiRec) :
    Except String (List (String × WifiRec)) :=
  match findBest best n.ssid with
  | none => .ok (best ++ [(n.ssid, n)])
  | some b =>
    match pyInt b.signal with
    | none => .error valueError
    | some bs => if sigOf n > bs then .ok (updateBest best n.ssid n) else .ok best

/-- The dedupe loop over all parsed records. -/
def dedupAll : List WifiRec → List (String × WifiRec) →
    Except String (List (String × WifiRec))
  | [], best => .ok best
  | n :: rest, best =>
    match dedupStep best n with
    | .error e => .error e
    | .ok best2 => dedupAll rest best2

/-- The sort-key pass of sorted (app.py line 349): an unguarded int() on
every surviving signal string, raising on the first unparseable one. -/
def keyRecs : List WifiRec → Except String (List (Int × WifiRec))
  | [] => .ok []
  | r :: rest =>
    match pyInt r.signal with
    | none => .error valueError
    | some k =>
      match keyRecs rest with
      | .error e => .error e
      | .ok ps => .ok ((k, r) :: ps)

/-- Comparator of the descending sort: a sorts before b when the key of b is
at most the key of a, which on ties keeps the original order. -/
def descLe (a b : Int × WifiRec) : Bool := decide (b.1 ≤ a.1)

/-- Stable insertion into an already sorted list. -/
def stableInsert {α : Type} (le : α → α → Bool) (x : α) : List α → List α
  | [] => [x]
  | y :: rest => if le x y then x :: y :: rest else y :: stableInsert le x rest

/-- Stable sort; models Python sorted with reverse=True through the
comparator above.  CPython sorted is stable and a stable sort by a total
comparator computes a unique list, so the choice of algorithm is immaterial. -/
def stableSort {α : Type} (le : α → α → Bool) : List α → List α
  | [] => []
  | x :: rest => stableInsert le x (stableSort le rest)

/-- The final sorted call (app.py line 349): key every surviving record,
then sort by signal descending. -/
def sortNetworks (vals : List WifiRec) : Except String (List WifiRec) :=
  match keyRecs vals with
  | .error e => .error e
  | .ok keyed => .ok ((stableSort descLe keyed).map Prod.snd)

/-- The whole reducer of wifi_scan for a successful nmcli call (app.py
lines 332-349), from stdout lines to the returned network list; an error
models an uncaught ValueError escaping the handler. -/
def wifiReduce (lines : List String) : Except String (List WifiRec) :=
  match dedupAll (parseNetworks lines) [] with
  | .error e => .error e
  | .ok best => sortNetworks (best.map Prod.snd)

/-! ### Concrete inputs used by the witnesses and counterexamples -/

/-- The worked scan example of the specification. -/
def exLines : List String := [("A:30:WPA"), ("B:70:WPA"), ("A:55:WPA")]

/-- The output the specification expects for the worked example. -/
def exOut : List WifiRec := [⟨("B"), ("70"), ("WPA")⟩, ⟨("A"), ("55"), ("WPA")⟩]

/-- A world whose only sound card is card 1 and exposes no controls. -/
def w1 : AlsaWorld := ⟨[("1|USB Audio Device")], [("1")], fun _ => [], ("")⟩

/-- A trivial executor whose every command succeeds with empty output. -/
def env0 : Exec := fun _ => ⟨0, (""), ("")⟩

set_option maxRecDepth 10000

/-- Invariant of the dedupe loop after consuming the records in seen: every
stored entry is keyed by its own SSID, keys are distinct, every stored
record was seen, every stored record carries the largest parsed-or-zero
signal among the seen records of its SSID, and every seen SSID is stored. -/
structure GoodBest (seen : List WifiRec) (best : List (String × WifiRec)) : Prop where
  keyed : ∀ p ∈ best, (Prod.snd p).ssid = Prod.fst p
  nodup : (best.map Prod.fst).Nodup
  memSeen : ∀ p ∈ best, Prod.snd p ∈ seen
  maximal : ∀ p ∈ best, ∀ s ∈ seen, s.ssid = Prod.fst p → sigOf s ≤ sigOf (Prod.snd p)
  cover : ∀ s ∈ seen, s.ssid ∈ best.map Prod.fst

theorem findBest_none_iff (best : List (String × WifiRec)) (k : String) :
    findBest best k = none ↔ k ∉ best.map Prod.fst := by
  induction best with
  | nil => simp [findBest]
  | cons e rest ih =>
    obtain ⟨k0, v0⟩ := e
    by_cases h : k0 = k
    · subst h
      simp [findBest]
    · simp [findBest, h, ih]
      intro hk
      exact fun hkk => h hkk.symm

theorem findBest_mem {best : List (String × WifiRec)} {k : String} {b : WifiRec}
    (h : findBest best k = some b) : (k, b) ∈ best := by
  induction best with
  | nil => simp [findBest] at h
  | cons e rest ih =>
    obtain ⟨k0, v0⟩ := e
    by_cases hk : k0 = k
    · subst hk
      simp [findBest] at h
      simp [h]
    · simp [findBest, hk] at h
      exact List.mem_cons_of_mem _ (ih h)

theorem updateBest_keys {best : List (String × WifiRec)} {k : String} {b v : WifiRec}
    (h : findBest best k = some b) :
    (updateBest best k v).map Prod.fst = best.map Prod.fst := by
  induction best with
  | nil => simp [findBest] at h
  | cons e rest ih =>
    obtain ⟨k0, v0⟩ := e
    by_cases hk : k0 = k
    · subst hk
      simp [updateBest]
    · simp [findBest, hk] at h
      simp [updateBest, hk, ih h]

theorem mem_updateBest_iff {best : List (String × WifiRec)} {k : String} {b v : WifiRec}
    (hnd : (best.map Prod.fst).Nodup) (hfb : findBest best k = some b)
    (p : String × WifiRec) :
    p ∈ updateBest best k v ↔ p = (k, v) ∨ (p ∈ best ∧ Prod.fst p ≠ k) := by
  induction best with
  | nil => simp [findBest] at hfb
  | cons e rest ih =>
    obtain ⟨k0, v0⟩ := e
    rw [List.map_cons, List.nodup_cons] at hnd
    obtain ⟨hnotin, hnd2⟩ := hnd
    by_cases hk : k0 = k
    · subst hk
      have hupd : updateBest ((k0, v0) :: rest) k0 v = (k0, v) :: rest := by
        simp [updateBest]
      rw [hupd, List.mem_cons, List.mem_cons]
      constructor
      · rintro (h | h)
        · exact Or.inl h
        · refine Or.inr ⟨Or.inr h, ?_⟩
          intro hpk
          apply hnotin
          have hmem : Prod.fst p ∈ List.map Prod.fst rest := List.mem_map_of_mem Prod.fst h
          rw [hpk] at hmem
          exact hmem
      · rintro (h | ⟨h | h, hpk⟩)
        · exact Or.inl h
        · exact absurd (congrArg Prod.fst h) hpk
        · exact Or.inr h
    · have hfb2 : findBest rest k = some b := by
        simpa [findBest, hk] using hfb
      have hupd : updateBest ((k0, v0) :: rest) k v = (k0, v0) :: updateBest rest k v := by
        simp [updateBest, hk]
      rw [hupd, List.mem_cons, ih hnd2 hfb2, List.mem_cons]
      constructor
      · rintro (h | h | ⟨h1, h2⟩)
        · refine Or.inr ⟨Or.inl h, ?_⟩
          rw [h]
          exact hk
        · exact Or.inl h
        · exact Or.inr ⟨Or.inr h1, h2⟩
      · rintro (h | ⟨h | h, hpk⟩)
        · exact Or.inr (Or.inl h)
        · exact Or.inl h
        · exact Or.inr (Or.inr ⟨h, hpk⟩)

theorem entry_unique {best : List (String × WifiRec)} (hnd : (best.map Prod.fst).Nodup)
    {p q : String × WifiRec} (hp : p ∈ best) (hq : q ∈ best)
    (h : Prod.fst p = Prod.fst q) : p = q := by
  induction best with
  | nil => cases hp
  | cons e rest ih =>
    rw [List.map_cons, List.nodup_cons] at hnd
    obtain ⟨hnotin, hnd2⟩ := hnd
    rcases List.mem_cons.mp hp with hp1 | hp2 <;> rcases List.mem_cons.mp hq with hq1 | hq2
    · rw [hp1, hq1]
    · exfalso
      apply hnotin
      have hmem : Prod.fst q ∈ List.map Prod.fst rest := List.mem_map_of_mem Prod.fst hq2
      rw [hp1] at h
      rw [← h] at hmem
      exact hmem
    · exfalso
      apply hnotin
      have hmem : Prod.fst p ∈ List.map Prod.fst rest := List.mem_map_of_mem Prod.fst hp2
      rw [hq1] at h
      rw [h] at hmem
      exact hmem
    · exact ih hnd2 hp2 hq2

theorem stableInsert_perm {α : Type} (le : α → α → Bool) (x : α) (l : List α) :
    (stableInsert le x l).Perm (x :: l) := by
  induction l with
  | nil => simp [stableInsert]
  | cons y rest ih =>
    by_cases h : le x y
    · simp [stableInsert, h]
    · simp only [stableInsert, if_neg h]
      exact (ih.cons y).trans (List.Perm.swap x y rest)

theorem stableSort_perm {α : Type} (le : α → α → Bool) (l : List α) :
    (stableSort le l).Perm l := by
  induction l with
  | nil => simp [stableSort]
  | cons x rest ih =>
    exact (stableInsert_perm le x (stableSort le rest)).trans (ih.cons x)

theorem stableInsert_pairwise {α : Type} (le : α → α → Bool)
    (htr : ∀ a b c, le a b = true → le b c = true → le a c = true)
    (hto : ∀ a b, le a b = true ∨ le b a = true)
    (x : α) (l : List α) (hl : l.Pairwise (fun a b => le a b = true)) :
    (stableInsert le x l).Pairwise (fun a b => le a b = true) := by
  induction l with
  | nil => simp [stableInsert]
  | cons y rest ih =>
    obtain ⟨hy, hrest⟩ := List.pairwise_cons.mp hl
    by_cases h : le x y
    · simp only [stableInsert, if_pos h]
      refine List.pairwise_cons.mpr ⟨?_, hl⟩
      intro b hb
      rcases List.mem_cons.mp hb with hb1 | hb2
      · rw [hb1]
        exact h
      · exact htr x y b h (hy b hb2)
    · simp only [stableInsert, if_neg h]
      refine List.pairwise_cons.mpr ⟨?_, ih hrest⟩
      intro b hb
      have hb2 : b ∈ x :: rest := (stableInsert_perm le x rest).mem_iff.mp hb
      rcases List.mem_cons.mp hb2 with hb3 | hb4
      · rw [hb3]
        rcases hto x y with hxy | hyx
        · exact absurd hxy h
        · exact hyx
      · exact hy b hb4

theorem stableSort_pairwise {α : Type} (le : α → α → Bool)
    (htr : ∀ a b c, le a b = true → le b c = true → le a c = true)
    (hto : ∀ a b, le a b = true ∨ le b a = true) (l : List α) :
    (stableSort le l).Pairwise (fun a b => le a b = true) := by
  induction l with
  | nil => simp [stableSort]
  | cons x rest ih =>
    exact stableInsert_pairwise le htr hto x (stableSort le rest) ih

theorem keyRecs_ok (vals : List WifiRec) (h : ∀ r ∈ vals, (pyInt r.signal).isSome) :
    keyRecs vals = .ok (vals.map fun r => (sigOf r, r)) := by
  induction vals with
  | nil => rfl
  | cons r rest ih =>
    obtain ⟨k, hk⟩ := Option.isSome_iff_exists.mp (h r (List.mem_cons_self r rest))
    have hs : sigOf r = k := by simp [sigOf, hk]
    have ih2 := ih (fun x hx => h x (List.mem_cons_of_mem r hx))
    simp [keyRecs, hk, ih2, hs]

theorem parseNetworks_ssid {lines : List String} {r : WifiRec}
    (hr : r ∈ parseNetworks lines) : r.ssid ≠ ("") := by
  rw [parseNetworks, List.mem_filterMap] at hr
  obtain ⟨line, _, heq⟩ := hr
  rcases hsp : pySplit line ':' with _ | ⟨s0, _ | ⟨s1, _ | ⟨s2, tail⟩⟩⟩ <;>
    rw [hsp] at heq <;> simp at heq
  obtain ⟨h0, heq2⟩ := heq
  rw [← heq2]
  exact h0

theorem clampUI_le (value : Int) : clampUI value ≤ 100 := by
  unfold clampUI
  omega

theorem clampUI_coe (n : Nat) (h : n ≤ 100) : clampUI (n : Int) = n := by
  unfold clampUI
  omega

theorem dedupAll_good (ns : List WifiRec) :
    ∀ (seen : List WifiRec) (best : List (String × WifiRec)),
    (∀ r ∈ ns, (pyInt r.signal).isSome) →
    (∀ r ∈ seen, (pyInt r.signal).isSome) →
    GoodBest seen best →
    ∃ out, dedupAll ns best = .ok out ∧ GoodBest (seen ++ ns) out := by
  induction ns with
  | nil =>
    intro seen best _ _ hg
    exact ⟨best, rfl, by simpa using hg⟩
  | cons n rest ih =>
    intro seen best hns hseen hg
    have hn : (pyInt n.signal).isSome := hns n (List.mem_cons_self n rest)
    have hrest : ∀ r ∈ rest, (pyInt r.signal).isSome :=
      fun r hr => hns r (List.mem_cons_of_mem n hr)
    have hseen2 : ∀ r ∈ seen ++ [n], (pyInt r.signal).isSome := by
      intro r hr
      rcases List.mem_append.mp hr with h | h
      · exact hseen r h
      · rw [List.mem_singleton.mp h]
        exact hn
    have hre : (seen ++ [n]) ++ rest = seen ++ n :: rest := by simp
    cases hfb : findBest best n.ssid with
    | none =>
      have hstep : dedupAll (n :: rest) best = dedupAll rest (best ++ [(n.ssid, n)]) := by
        simp [dedupAll, dedupStep, hfb]
      have hnotin : n.ssid ∉ best.map Prod.fst := (findBest_none_iff best n.ssid).mp hfb
      have hgood : GoodBest (seen ++ [n]) (best ++ [(n.ssid, n)]) := by
        refine ⟨?_, ?_, ?_, ?_, ?_⟩
        · intro p hp
          rcases List.mem_append.mp hp with h | h
          · exact hg.keyed p h
          · rw [List.mem_singleton.mp h]
        · rw [List.map_append]
          rw [List.nodup_append]
          refine ⟨hg.nodup, List.nodup_singleton _, ?_⟩
          intro a ha hb
          rw [List.mem_singleton.mp hb] at ha
          exact hnotin ha
        · intro p hp
          rcases List.mem_append.mp hp with h | h
          · exact List.mem_append_left _ (hg.memSeen p h)
          · rw [List.mem_singleton.mp h]
            exact List.mem_append_right _ (List.mem_singleton_self n)
        · intro p hp s hs hss
          rcases List.mem_append.mp hp with h | h
          · rcases List.mem_append.mp hs with h2 | h2
            · exact hg.maximal p h s h2 hss
            · exfalso
              rw [List.mem_singleton.mp h2] at hss
              apply hnotin
              rw [hss]
              exact List.mem_map_of_mem Prod.fst h
          · rw [List.mem_singleton.mp h] at hss ⊢
            rcases List.mem_append.mp hs with h2 | h2
            · exfalso
              apply hnotin
              have hc := hg.cover s h2
              have hss2 : s.ssid = n.ssid := hss
              rw [← hss2]
              exact hc
            · rw [List.mem_singleton.mp h2]
        · intro s hs
          rw [List.map_append]
          rcases List.mem_append.mp hs with h2 | h2
          · exact List.mem_append_left _ (hg.cover s h2)
          · rw [List.mem_singleton.mp h2]
            refine List.mem_append_right _ ?_
            exact List.mem_singleton_self _
      obtain ⟨out, hout, hg2⟩ := ih (seen ++ [n]) _ hrest hseen2 hgood
      refine ⟨out, by rw [hstep]; exact hout, ?_⟩
      rwa [hre] at hg2
    | some b =>
      have hbmem : (n.ssid, b) ∈ best := findBest_mem hfb
      have hbseen : b ∈ seen := hg.memSeen _ hbmem
      obtain ⟨bs, hbs⟩ := Option.isSome_iff_exists.mp (hseen b hbseen)
      have hsigb : sigOf b = bs := by simp [sigOf, hbs]
      by_cases hgt : sigOf n > bs
      · have hstep : dedupAll (n :: rest) best = dedupAll rest (updateBest best n.ssid n) := by
          simp [dedupAll, dedupStep, hfb, hbs, hgt]
        have hkeys := updateBest_keys (v := n) hfb
        have hmem := mem_updateBest_iff (v := n) hg.nodup hfb
        have hgood : GoodBest (seen ++ [n]) (updateBest best n.ssid n) := by
          refine ⟨?_, ?_, ?_, ?_, ?_⟩
          · intro p hp
            rcases (hmem p).mp hp with h | ⟨h, _⟩
            · rw [h]
            · exact hg.keyed p h
          · rw [hkeys]
            exact hg.nodup
          · intro p hp
            rcases (hmem p).mp hp with h | ⟨h, _⟩
            · rw [h]
              exact List.mem_append_right _ (List.mem_singleton_self n)
            · exact List.mem_append_left _ (hg.memSeen p h)
          · intro p hp s hs hss
            rcases (hmem p).mp hp with h | ⟨h, hne⟩
            · rw [h] at hss ⊢
              rcases List.mem_append.mp hs with h2 | h2
              · have hmax : sigOf s ≤ sigOf b := hg.maximal (n.ssid, b) hbmem s h2 hss
                show sigOf s ≤ sigOf n
                omega
              · rw [List.mem_singleton.mp h2]
            · rcases List.mem_append.mp hs with h2 | h2
              · exact hg.maximal p h s h2 hss
              · exfalso
                rw [List.mem_singleton.mp h2] at hss
                exact hne hss.symm
          · intro s hs
            rw [hkeys]
            rcases List.mem_append.mp hs with h2 | h2
            · exact hg.cover s h2
            · rw [List.mem_singleton.mp h2]
              exact List.mem_map_of_mem Prod.fst hbmem
        obtain ⟨out, hout, hg2⟩ := ih (seen ++ [n]) _ hrest hseen2 hgood
        refine ⟨out, by rw [hstep]; exact hout, ?_⟩
        rwa [hre] at hg2
      · have hstep : dedupAll (n :: rest) best = dedupAll rest best := by
          simp [dedupAll, dedupStep, hfb, hbs, hgt]
        have hgood : GoodBest (seen ++ [n]) best := by
          refine ⟨hg.keyed, hg.nodup, ?_, ?_, ?_⟩
          · intro p hp
            exact List.mem_append_left _ (hg.memSeen p hp)
          · intro p hp s hs hss
            rcases List.mem_append.mp hs with h2 | h2
            · exact hg.maximal p hp s h2 hss
            · rw [List.mem_singleton.mp h2] at hss ⊢
              have hpe : p = (n.ssid, b) := entry_unique hg.nodup hp hbmem hss.symm
              rw [hpe]
              show sigOf n ≤ sigOf b
              omega
          · intro s hs
            rcases List.mem_append.mp hs with h2 | h2
            · exact hg.cover s h2
            · rw [List.mem_singleton.mp h2]
              exact List.mem_map_of_mem Prod.fst hbmem
        obtain ⟨out, hout, hg2⟩ := ih (seen ++ [n]) best hrest hseen2 hgood
        refine ⟨out, by rw [hstep]; exact hout, ?_⟩
        rwa [hre] at hg2

theorem goodBest_init : GoodBest [] [] := by
  refine ⟨?_, ?_, ?_, ?_, ?_⟩ <;> simp

/-- Claim C5 (amended): for every sequence of scan lines whose parsed
records all carry an integer-parseable signal field, the reducer returns a
list that contains no empty SSID, consists of parsed records carrying the
largest signal among the records of their SSID, lists each SSID at most
once, covers every parsed SSID, and is sorted by signal descending; and on
the worked example it returns exactly B at 70 followed by A at 55. -/
theorem wifi_reduce_correct (lines : List String)
    (hp : ∀ r ∈ parseNetworks lines, (pyInt r.signal).isSome) :
    (∃ out, wifiReduce lines = .ok out ∧
      (∀ r ∈ out, r.ssid ≠ ("") ∧ r ∈ parseNetworks lines ∧
        ∀ s ∈ parseNetworks lines, s.ssid = r.ssid → sigOf s ≤ sigOf r) ∧
      (out.map (fun r => r.ssid)).Nodup ∧
      (∀ s ∈ parseNetworks lines, ∃ r ∈ out, r.ssid = s.ssid) ∧
      out.Pairwise (fun a b => sigOf b ≤ sigOf a)) ∧
    wifiReduce exLines = .ok exOut := by
  refine ⟨?_, rfl⟩
  obtain ⟨best, hbest, hg⟩ :=
    dedupAll_good (parseNetworks lines) [] [] hp (by simp) goodBest_init
  rw [List.nil_append] at hg
  have hvp : ∀ r ∈ best.map Prod.snd, (pyInt r.signal).isSome := by
    intro r hr
    obtain ⟨p, hpmem, hpr⟩ := List.mem_map.mp hr
    exact hp r (hpr ▸ hg.memSeen p hpmem)
  have hkeyed := keyRecs_ok (best.map Prod.snd) hvp
  have hred : wifiReduce lines = .ok
      ((stableSort descLe ((best.map Prod.snd).map fun r => (sigOf r, r))).map Prod.snd) := by
    simp [wifiReduce, hbest, sortNetworks, hkeyed]
  have hperm : (stableSort descLe ((best.map Prod.snd).map fun r => (sigOf r, r))).Perm
      ((best.map Prod.snd).map fun r => (sigOf r, r)) :=
    stableSort_perm descLe _
  have houtperm :
      ((stableSort descLe ((best.map Prod.snd).map fun r => (sigOf r, r))).map Prod.snd).Perm
        (best.map Prod.snd) := by
    have h0 := hperm.map Prod.snd
    have h2 : (((best.map Prod.snd).map fun r => (sigOf r, r)).map Prod.snd) = best.map Prod.snd := by
      rw [List.map_map]
      simp
    rw [h2] at h0
    exact h0
  have hkeysEq : (best.map Prod.snd).map (fun r => r.ssid) = best.map Prod.fst := by
    rw [List.map_map]
    apply List.map_congr_left
    intro p hpmem
    exact hg.keyed p hpmem
  refine ⟨_, hred, ?_, ?_, ?_, ?_⟩
  · intro r hr
    have hrv : r ∈ best.map Prod.snd := houtperm.mem_iff.mp hr
    obtain ⟨p, hpmem, hpr⟩ := List.mem_map.mp hrv
    have hrnet : r ∈ parseNetworks lines := hpr ▸ hg.memSeen p hpmem
    refine ⟨parseNetworks_ssid hrnet, hrnet, ?_⟩
    intro s hs hss
    have hkey : s.ssid = Prod.fst p := by
      rw [hss, ← hpr]
      exact hg.keyed p hpmem
    have hm := hg.maximal p hpmem s hs hkey
    rw [hpr] at hm
    exact hm
  · have hpm := houtperm.map (fun r => r.ssid)
    rw [hkeysEq] at hpm
    exact hpm.symm.nodup hg.nodup
  · intro s hs
    have hid := hg.cover s hs
    rw [← hkeysEq] at hid
    have hpm := houtperm.map (fun r => r.ssid)
    have hmem2 : s.ssid ∈
        ((stableSort descLe ((best.map Prod.snd).map fun r => (sigOf r, r))).map Prod.snd).map
          (fun r => r.ssid) := hpm.mem_iff.mpr hid
    obtain ⟨r, hrmem, hr⟩ := List.mem_map.mp hmem2
    exact ⟨r, hrmem, hr⟩
  · have hsortpw : (stableSort descLe ((best.map Prod.snd).map fun r => (sigOf r, r))).Pairwise
        (fun a b => descLe a b = true) := by
      apply stableSort_pairwise
      · intro a b c h1 h2
        simp only [descLe, decide_eq_true_eq] at h1 h2 ⊢
        omega
      · intro a b
        simp only [descLe, decide_eq_true_eq]
        omega
    have hkfact : ∀ p ∈ stableSort descLe ((best.map Prod.snd).map fun r => (sigOf r, r)),
        Prod.fst p = sigOf (Prod.snd p) := by
      intro p hpmem
      have hmem3 : p ∈ (best.map Prod.snd).map fun r => (sigOf r, r) := hperm.mem_iff.mp hpmem
      obtain ⟨r, hrmem, hrp⟩ := List.mem_map.mp hmem3
      rw [← hrp]
    rw [List.pairwise_map]
    refine hsortpw.imp_of_mem ?_
    intro a b ha hb hab
    have h1 := hkfact a ha
    have h2 := hkfact b hb
    simp only [descLe, decide_eq_true_eq] at hab
    rw [h1, h2] at hab
    exact hab

/-- Witness for claim C5: the amended theorem applied at the worked example
input, whose three records all carry parseable signals. -/
theorem wifi_reduce_correct_witness :
    (∃ out, wifiReduce exLines = .ok out ∧
      (∀ r ∈ out, r.ssid ≠ ("") ∧ r ∈ parseNetworks exLines ∧
        ∀ s ∈ parseNetworks exLines, s.ssid = r.ssid → sigOf s ≤ sigOf r) ∧
      (out.map (fun r => r.ssid)).Nodup ∧
      (∀ s ∈ parseNetworks exLines, ∃ r ∈ out, r.ssid = s.ssid) ∧
      out.Pairwise (fun a b => sigOf b ≤ sigOf a)) ∧
    wifiReduce exLines = .ok exOut :=
  wifi_reduce_correct exLines (by decide)

/-- Counterexample to claim C5 as stated: on a record sequence whose
duplicate SSID forces a comparison against a stored unparseable signal, the
reducer does not return any result list at all; it raises. -/
theorem wifi_reduce_raises_cex :
    wifiReduce [("A:zz:WPA"), ("A:50:WPA")] = .error valueError := rfl

/-- Claim C6: the code raises instead of treating a stored unparseable
signal as 0, both when a later duplicate SSID is compared against it and
when it survives into the final sort. -/
theorem wifi_unparseable_raises :
    wifiReduce [("B:xx:WPA"), ("B:60:WPA")] = .error valueError ∧
    wifiReduce [("C:xx:WPA")] = .error valueError :=
  ⟨rfl, rfl⟩

/-- Claim C1: the UI-to-hardware-and-back round trip never exceeds the UI
value and loses at most 3 UI points (one hardware step of the compressed
70..100 range spans 10/3 UI points), and is exact at the boundaries 0 and
100. -/
theorem volume_roundtrip (ui : Nat) (h : ui ≤ 100) :
    (hw_to_ui (ui_to_hw ui) ≤ ui ∧ ui - hw_to_ui (ui_to_hw ui) ≤ 3) ∧
    hw_to_ui (ui_to_hw 0) = 0 ∧ hw_to_ui (ui_to_hw 100) = 100 := by
  have key : ∀ u : Nat, u < 101 →
      hw_to_ui (ui_to_hw u) ≤ u ∧ u - hw_to_ui (ui_to_hw u) ≤ 3 := by decide
  exact ⟨key ui (by omega), by decide, by decide⟩

/-- Witness for claim C1 at the interior point 37 and, through the fixed
conjuncts, at both boundaries. -/
theorem volume_roundtrip_witness :
    (hw_to_ui (ui_to_hw 37) ≤ 37 ∧ 37 - hw_to_ui (ui_to_hw 37) ≤ 3) ∧
    hw_to_ui (ui_to_hw 0) = 0 ∧ hw_to_ui (ui_to_hw 100) = 100 :=
  volume_roundtrip 37 (by decide)

/-- Claim C2: both volume curve maps are monotonic non-decreasing on the
integer domain 0..100. -/
theorem volume_maps_monotone (a b : Nat) (hab : a ≤ b) (hb : b ≤ 100) :
    ui_to_hw a ≤ ui_to_hw b ∧ hw_to_ui a ≤ hw_to_ui b := by
  have key : ∀ x : Nat, x < 101 → ∀ y : Nat, y < 101 → x ≤ y →
      ui_to_hw x ≤ ui_to_hw y ∧ hw_to_ui x ≤ hw_to_ui y := by decide
  exact key a (by omega) b (by omega) hab

/-- Witness for claim C2 at the pair 10 and 60. -/
theorem volume_maps_monotone_witness :
    ui_to_hw 10 ≤ ui_to_hw 60 ∧ hw_to_ui 10 ≤ hw_to_ui 60 :=
  volume_maps_monotone 10 60 (by decide) (by decide)

/-- Claim C3: a clamped UI value of 0 always issues the mute command at
hardware 0 percent, and any positive clamped UI value issues an unmute
command whose hardware percentage is nonzero (at least 70). -/
theorem set_volume_zero_mutes (det : Detected) (value : Int) :
    (clampUI value = 0 →
      (set_volume_percent det value).1 =
        [("sudo"), ("/usr/bin/amixer"), ("-c"), ("0"), ("set"), ("PCM"),
         ("0%"), ("mute")]) ∧
    (0 < clampUI value →
      ∃ hw : Nat, hw = ui_to_hw ((clampUI value : Nat) : Int) ∧ 0 < hw ∧
        (set_volume_percent det value).1 =
          [("sudo"), ("/usr/bin/amixer"), ("-c"), ("0"), ("set"), ("PCM"),
           toString hw ++ ("%"), ("unmute")]) := by
  constructor
  · intro h0
    simp [set_volume_percent, h0]
  · intro hpos
    have h0 : ¬ clampUI value = 0 := by omega
    refine ⟨ui_to_hw ((clampUI value : Nat) : Int), rfl, ?_, ?_⟩
    · have hc : clampUI ((clampUI value : Nat) : Int) = clampUI value :=
        clampUI_coe _ (clampUI_le value)
      rw [ui_to_hw]
      simp only [hc]
      rw [if_neg h0]
      omega
    · simp [set_volume_percent, h0]

/-- Witness for claim C3 at the inputs 0 and 50 (empty cache state). -/
theorem set_volume_zero_mutes_witness :
    (set_volume_percent ⟨none, none⟩ 0).1 =
      [("sudo"), ("/usr/bin/amixer"), ("-c"), ("0"), ("set"), ("PCM"),
       ("0%"), ("mute")] ∧
    (∃ hw : Nat, hw = ui_to_hw ((clampUI 50 : Nat) : Int) ∧ 0 < hw ∧
      (set_volume_percent ⟨none, none⟩ 50).1 =
        [("sudo"), ("/usr/bin/amixer"), ("-c"), ("0"), ("set"), ("PCM"),
         toString hw ++ ("%"), ("unmute")]) :=
  ⟨(set_volume_zero_mutes ⟨none, none⟩ 0).1 (by decide),
   (set_volume_zero_mutes ⟨none, none⟩ 50).2 (by decide)⟩

/-- Claim C4: the set-volume operation clamps every integer input to 0..100
before converting (behaving exactly as it does on the clamped value), and
returns the clamped UI value to the caller through the endpoint response. -/
theorem set_volume_clamps (det : Detected) (value : Int) :
    (set_volume_percent det value).2 = clampUI value ∧
    ((clampUI value : Nat) : Int) = max 0 (min 100 value) ∧
    api_set_volume det value = (⟨true, clampUI value⟩, [(set_volume_percent det value).1]) ∧
    set_volume_percent det value = set_volume_percent det ((clampUI value : Nat) : Int) := by
  have hc : clampUI ((clampUI value : Nat) : Int) = clampUI value :=
    clampUI_coe _ (clampUI_le value)
  refine ⟨?_, ?_, ?_, ?_⟩
  · by_cases h0 : clampUI value = 0 <;> simp [set_volume_percent, h0]
  · unfold clampUI
    omega
  · by_cases h0 : clampUI value = 0 <;>
      simp [api_set_volume, set_volume_percent, h0]
  · simp only [set_volume_percent, hc]

/-- Claim C10: the volume command and the volume reading are independent of
the detected mixer selection; the issued amixer command always addresses
card 0 and control PCM, whatever the cache holds. -/
theorem volume_independent_of_detection (w : AlsaWorld) (det det2 : Detected) (value : Int) :
    set_volume_percent det value = set_volume_percent det2 value ∧
    (set_volume_percent det value).1.take 6 =
      [("sudo"), ("/usr/bin/amixer"), ("-c"), ("0"), ("set"), ("PCM")] ∧
    get_volume_percent w det = get_volume_percent w det2 := by
  refine ⟨rfl, ?_, rfl⟩
  by_cases h0 : clampUI value = 0 <;> simp [set_volume_percent, h0]

/-- Claim C7: an action outside start/stop/restart or a name outside the
logical-service table yields a 400 error with no executor call; a known
name with a valid action issues exactly the sudo systemctl call and the
is-active status query, both addressing the mapped OS unit. -/
theorem api_service_spec (env : Exec) (name action : String) :
    ((action ∉ validActions ∨ serviceMapping.lookup name = none) →
      api_service env name action = (.error 400, [])) ∧
    (∀ unit, action ∈ validActions → serviceMapping.lookup name = some unit →
      api_service env name action =
        (.ok ⟨(systemctlRun env [action, unit]).1.ok, (service_status env unit).1,
              (systemctlRun env [action, unit]).1⟩,
         [[("sudo"), ("/usr/bin/systemctl"), action, unit],
          [("/usr/bin/systemctl"), ("is-active"), unit]])) := by
  constructor
  · rintro (h | h)
    · simp [api_service, h]
    · by_cases ha : action ∈ validActions
      · simp [api_service, ha, h]
      · simp [api_service, ha]
  · intro unit ha hl
    simp [api_service, ha, hl, systemctlRun, service_status]

/-- Witness for claim C7: an unknown name is rejected without commands, and
the spotify restart request reaches the executor as a raspotify restart. -/
theorem api_service_spec_witness :
    api_service env0 ("unknown-service") ("start") = (.error 400, []) ∧
    api_service env0 ("spotify") ("restart") =
      (.ok ⟨true, ("unknown"), ⟨true, (""), (""), 0⟩⟩,
       [[("sudo"), ("/usr/bin/systemctl"), ("restart"), ("raspotify")],
        [("/usr/bin/systemctl"), ("is-active"), ("raspotify")]]) := by
  constructor
  · exact (api_service_spec env0 ("unknown-service") ("start")).1 (Or.inr (by decide))
  · rw [(api_service_spec env0 ("spotify") ("restart")).2 ("raspotify") (by decide) (by decide)]
    rfl

/-- Claim C8: an unknown multiroom mode is rejected with 400 before any
command runs; mode server issues exactly the two privileged transition
calls enable snapserver then disable snapclient (mirrored for client, both
disabled for off), followed only by the four read-only status probes, and
the response always reports the observed state of both units with ok true,
whatever the executor returns. -/
theorem api_multiroom_spec (env : Exec) (mode : String) :
    (mode ∉ [("server"), ("client"), ("off")] →
      api_multiroom env mode = (.error 400, [])) ∧
    (api_multiroom env ("server") =
      (.ok ⟨true, ("server"), (service_status env ("snapserver")).1,
            (service_status env ("snapclient")).1,
            (service_enabled env ("snapserver")).1,
            (service_enabled env ("snapclient")).1⟩,
       [[("sudo"), ("/usr/bin/systemctl"), ("enable"), ("--now"), ("snapserver")],
        [("sudo"), ("/usr/bin/systemctl"), ("disable"), ("--now"), ("snapclient")],
        [("/usr/bin/systemctl"), ("is-active"), ("snapserver")],
        [("/usr/bin/systemctl"), ("is-active"), ("snapclient")],
        [("/usr/bin/systemctl"), ("is-enabled"), ("snapserver")],
        [("/usr/bin/systemctl"), ("is-enabled"), ("snapclient")]])) ∧
    (api_multiroom env ("client") =
      (.ok ⟨true, ("client"), (service_status env ("snapserver")).1,
            (service_status env ("snapclient")).1,
            (service_enabled env ("snapserver")).1,
            (service_enabled env ("snapclient")).1⟩,
       [[("sudo"), ("/usr/bin/systemctl"), ("enable"), ("--now"), ("snapclient")],
        [("sudo"), ("/usr/bin/systemctl"), ("disable"), ("--now"), ("snapserver")],
        [("/usr/bin/systemctl"), ("is-active"), ("snapserver")],
        [("/usr/bin/systemctl"), ("is-active"), ("snapclient")],
        [("/usr/bin/systemctl"), ("is-enabled"), ("snapserver")],
        [("/usr/bin/systemctl"), ("is-enabled"), ("snapclient")]])) ∧
    (api_multiroom env ("off") =
      (.ok ⟨true, ("off"), (service_status env ("snapserver")).1,
            (service_status env ("snapclient")).1,
            (service_enabled env ("snapserver")).1,
            (service_enabled env ("snapclient")).1⟩,
       [[("sudo"), ("/usr/bin/systemctl"), ("disable"), ("--now"), ("snapserver")],
        [("sudo"), ("/usr/bin/systemctl"), ("disable"), ("--now"), ("snapclient")],
        [("/usr/bin/systemctl"), ("is-active"), ("snapserver")],
        [("/usr/bin/systemctl"), ("is-active"), ("snapclient")],
        [("/usr/bin/systemctl"), ("is-enabled"), ("snapserver")],
        [("/usr/bin/systemctl"), ("is-enabled"), ("snapclient")]])) ∧
    ((api_multiroom env ("server")).2.filter (fun c => c.take 1 == [("sudo")]) =
      [[("sudo"), ("/usr/bin/systemctl"), ("enable"), ("--now"), ("snapserver")],
       [("sudo"), ("/usr/bin/systemctl"), ("disable"), ("--now"), ("snapclient")]]) := by
  refine ⟨?_, rfl, rfl, rfl, rfl⟩
  intro h
  simp [api_multiroom, h]

/-- Witness for claim C8: an invalid mode is rejected without commands, and
with the trivial executor the server transition reports unknown states. -/
theorem api_multiroom_spec_witness :
    api_multiroom env0 ("standalone") = (.error 400, []) ∧
    (api_multiroom env0 ("server")).1 =
      .ok ⟨true, ("server"), ("unknown"), ("unknown"), ("unknown"), ("unknown")⟩ := by
  constructor
  · exact (api_multiroom_spec env0 ("standalone")).1 (by decide)
  · rw [(api_multiroom_spec env0 ("server")).2.1]
    rfl

theorem pickMixer_none (w : AlsaWorld) (cs : List Int)
    (h : ∀ c ∈ cs, ∀ m ∈ preferredMixers, m ∉ list_mixers w c) :
    pickMixer w cs = none := by
  induction cs with
  | nil => rfl
  | cons c rest ih =>
    have hfp : firstPreferred (list_mixers w c) = none := by
      rw [firstPreferred, List.find?_eq_none]
      intro m hm
      simpa using h c (List.mem_cons_self c rest) m hm
    have ih2 := ih (fun c2 hc2 => h c2 (List.mem_cons_of_mem c hc2))
    simp [pickMixer, hfp, ih2]

/-- Claim C9 (amended): when no candidate card exposes any control from the
preference list, detect_mixer selects the first candidate card (card 0 only
when the candidate list is empty) with the default control Master, and any
detection result is memoized: a later call returns the same selection and
issues no shell queries at all. -/
theorem detect_mixer_fallback_memo (w : AlsaWorld)
    (hnone : ∀ c ∈ candidateCards w, ∀ m ∈ preferredMixers, m ∉ list_mixers w c) :
    (detect_mixer w ⟨none, none⟩).sel = ((candidateCards w).headD 0, ("Master")) ∧
    (∀ w2 w3 st,
      (detect_mixer w3 (detect_mixer w2 st).state).sel = (detect_mixer w2 st).sel ∧
      (detect_mixer w3 (detect_mixer w2 st).state).queries = []) := by
  constructor
  · have hpick : pickMixer w (candidateCards w) = none := pickMixer_none w _ hnone
    simp [detect_mixer, hpick]
  · intro w2 w3 st
    obtain ⟨oc, om⟩ := st
    cases oc <;> cases om <;> simp [detect_mixer]

/-- Counterexample to claim C9 as stated: in a world whose only enumerated
card is card 1 with no mixer controls, no candidate exposes a preferred
control, yet the fallback selection is card 1 with Master, not card 0. -/
theorem detect_fallback_not_card0 :
    candidateCards w1 = [1] ∧ list_mixers w1 1 = [] ∧
    (detect_mixer w1 ⟨none, none⟩).sel = (1, ("Master")) ∧
    (detect_mixer w1 ⟨none, none⟩).sel.1 ≠ 0 :=
  ⟨rfl, rfl, rfl, by decide⟩

/-- Witness for claim C9: the amended theorem applied to the concrete world
with one control-less card, including the memoized second call. -/
theorem detect_mixer_fallback_memo_witness :
    (detect_mixer w1 ⟨none, none⟩).sel = ((candidateCards w1).headD 0, ("Master")) ∧
    (detect_mixer w1 (detect_mixer w1 ⟨none, none⟩).state).sel =
      (detect_mixer w1 ⟨none, none⟩).sel ∧
    (detect_mixer w1 (detect_mixer w1 ⟨none, none⟩).state).queries = [] :=
  ⟨(detect_mixer_fallback_memo w1 (by decide)).1,
   ((detect_mixer_fallback_memo w1 (by decide)).2 w1 w1 ⟨none, none⟩).1,
   ((detect_mixer_fallback_memo w1 (by decide)).2 w1 w1 ⟨none, none⟩).2⟩
